import Mathlib

/-!
Shallow embedding of the storage core of the Kapelczak laboratory notebook
backend (`server/storage.ts`): the entity model of `shared/schema.ts`, the
in-memory backend `MemStorage` (JS `Map`s keyed by id plus per-entity
counters) and the relational backend `DatabaseStorage` (drizzle queries over
PostgreSQL tables with serial primary keys).

Modelling conventions:
* JS `Map<number, T>` becomes a `List T` in insertion order; `Map.get` is
  `find?` on the id field, `Map.set` replaces in place when the key exists and
  appends otherwise, `Map.delete` removes the entries with that id and reports
  whether one existed.  Real `Map` states have pairwise distinct keys; the
  well-formedness predicate `WF` records that.
* SQL tables also become lists of rows; `db.select().where(p)` is `filter p`,
  `db.delete().where(p)` removes the rows matching `p` and its `rowCount` is
  the number removed, `db.insert` appends a row with the next serial id,
  `db.update().set(u).where(p)` merges `u` into every matching row.
* Timestamps (`new Date()`, `defaultNow()`) are an abstract clock value
  `now : Nat` passed to each operation that stamps records.
* JS string `includes` is substring containment; SQL `LIKE` is modelled by a
  full `%`/`_` pattern matcher (`likeMatch`), applied to `'%' ++ q ++ '%'`
  exactly as `DatabaseStorage` builds its search term.
-/

/-- A row of the `users` table / `MemStorage.users`. -/
structure User where
  id : Nat
  username : String
  password : String
  displayName : String
  role : String
  avatarUrl : Option String
  createdAt : Nat
deriving Repr, DecidableEq

/-- A row of the `projects` table / `MemStorage.projects`. -/
structure Project where
  id : Nat
  name : String
  description : Option String
  createdAt : Nat
  updatedAt : Nat
  ownerId : Nat
deriving Repr, DecidableEq

/-- A row of the `experiments` table / `MemStorage.experiments`. -/
structure Experiment where
  id : Nat
  name : String
  description : Option String
  projectId : Nat
  createdAt : Nat
  updatedAt : Nat
deriving Repr, DecidableEq

/-- A row of the `notes` table / `MemStorage.notes`. -/
structure Note where
  id : Nat
  title : String
  content : Option String
  experimentId : Nat
  authorId : Nat
  createdAt : Nat
  updatedAt : Nat
deriving Repr, DecidableEq

/-- A row of the `attachments` table / `MemStorage.attachments`. -/
structure Attachment where
  id : Nat
  fileName : String
  fileSize : Nat
  fileType : String
  fileData : String
  noteId : Nat
  createdAt : Nat
deriving Repr, DecidableEq

/-- A row of the `project_collaborators` table. -/
structure ProjectCollaborator where
  id : Nat
  projectId : Nat
  userId : Nat
  role : String
deriving Repr, DecidableEq

/-- `InsertProject` (insert schema: `projects` minus id/createdAt/updatedAt). -/
structure InsertProject where
  name : String
  description : Option String
  ownerId : Nat
deriving Repr, DecidableEq

/-- `InsertExperiment` (insert schema: `experiments` minus id/timestamps). -/
structure InsertExperiment where
  name : String
  description : Option String
  projectId : Nat
deriving Repr, DecidableEq

/-- `InsertNote` (insert schema: `notes` minus id/timestamps). -/
structure InsertNote where
  title : String
  content : Option String
  experimentId : Nat
  authorId : Nat
deriving Repr, DecidableEq

/-- `InsertAttachment` (insert schema: `attachments` minus id/createdAt). -/
structure InsertAttachment where
  fileName : String
  fileSize : Nat
  fileType : String
  fileData : String
  noteId : Nat
deriving Repr, DecidableEq

/-- `InsertProjectCollaborator` (insert schema: the table minus id). -/
structure InsertProjectCollaborator where
  projectId : Nat
  userId : Nat
  role : String
deriving Repr, DecidableEq

/-- `Partial<InsertProject>`: each key may be absent (outer `Option`). -/
structure PartialProject where
  name : Option String := none
  description : Option (Option String) := none
  ownerId : Option Nat := none
deriving Repr, DecidableEq

/-- `Partial<InsertExperiment>`. -/
structure PartialExperiment where
  name : Option String := none
  description : Option (Option String) := none
  projectId : Option Nat := none
deriving Repr, DecidableEq

/-- `Partial<InsertNote>`. -/
structure PartialNote where
  title : Option String := none
  content : Option (Option String) := none
  experimentId : Option Nat := none
  authorId : Option Nat := none
deriving Repr, DecidableEq

/-- The storage state: the six collections (JS `Map`s of `MemStorage`, or the
six relations of `DatabaseStorage`) plus the per-entity next-id counters
(`MemStorage`'s explicit counters; the serial sequences of the database). -/
structure StoreState where
  users : List User
  projects : List Project
  experiments : List Experiment
  notes : List Note
  attachments : List Attachment
  projectCollaborators : List ProjectCollaborator
  userId : Nat
  projectId : Nat
  experimentId : Nat
  noteId : Nat
  attachmentId : Nat
  collaboratorId : Nat
deriving Repr, DecidableEq

/-- The empty store with all counters seeded at 1 (the `MemStorage`
constructor before the default-user bootstrap). -/
def emptyStore : StoreState :=
  { users := [], projects := [], experiments := [], notes := [],
    attachments := [], projectCollaborators := [],
    userId := 1, projectId := 1, experimentId := 1, noteId := 1,
    attachmentId := 1, collaboratorId := 1 }

/-- JS `Map.get(i)` on a list keyed by `getId`. -/
def mapGet (getId : α → Nat) (l : List α) (i : Nat) : Option α :=
  l.find? (fun x => getId x == i)

/-- JS `Map.set(getId v, v)`: replace in place when the key exists, append
otherwise (insertion order is preserved, new keys go to the back). -/
def mapSet (getId : α → Nat) (l : List α) (v : α) : List α :=
  if l.any (fun x => getId x == getId v) then
    l.map (fun x => if getId x == getId v then v else x)
  else
    l ++ [v]

/-- JS `Map.delete(i)`: whether an entry with key `i` existed, and the list
with those entries removed. -/
def mapDelete (getId : α → Nat) (l : List α) (i : Nat) : Bool × List α :=
  (l.any (fun x => getId x == i), l.filter (fun x => getId x != i))

/-- Whether the first character list is an initial segment of the second. -/
def charsStart : List Char → List Char → Bool
  | [], _ => true
  | _ :: _, [] => false
  | p :: ps, c :: s => p == c && charsStart ps s

/-- Whether `pat` occurs contiguously in the second character list. -/
def charsContain (pat : List Char) : List Char → Bool
  | [] => pat.isEmpty
  | c :: rest => charsStart pat (c :: rest) || charsContain pat rest

/-- JS `String.prototype.includes`: substring containment. -/
def strIncludes (s pat : String) : Bool :=
  charsContain pat.data s.data

/-- JS `String.prototype.toLowerCase` (characterwise lowering; the two agree
on the ASCII data of this system). -/
def strLower (s : String) : String :=
  ⟨s.data.map Char.toLower⟩

/-- Whether `f` holds of some suffix of the list (the list itself included). -/
def anySuffix (f : List Char → Bool) : List Char → Bool
  | [] => f []
  | c :: s => f (c :: s) || anySuffix f s

/-- SQL `LIKE` pattern matching over character lists: `%` matches any run of
characters, `_` any single character, everything else itself. -/
def likeMatch : List Char → List Char → Bool
  | [], s => s.isEmpty
  | '%' :: ps, s => anySuffix (fun t => likeMatch ps t) s
  | '_' :: ps, s =>
    match s with
    | [] => false
    | _ :: s' => likeMatch ps s'
  | p :: ps, s =>
    match s with
    | [] => false
    | c :: s' => p == c && likeMatch ps s'

/-- SQL `column LIKE pattern` on string values. -/
def sqlLike (s pat : String) : Bool :=
  likeMatch pat.data s.data

/-- JS `[...new Set(l)]`: keep the first occurrence of each element, in
order.  (`Set` deduplicates by object identity; in `MemStorage` both arms of
the union draw from the same `Map`, so identity coincides with value
equality on well-formed states.) -/
def jsSetDedup [DecidableEq α] : List α → List α
  | [] => []
  | a :: l => a :: (jsSetDedup l).filter (fun b => b != a)

/-- JS truthiness of an optional string (`null`/`undefined` and `""` are
falsy). -/
def jsTruthy : Option String → Bool
  | none => false
  | some c => c != ""

/-! ## `MemStorage` -/

/-- `MemStorage.getProject`. -/
def memGetProject (i : Nat) (s : StoreState) : Option Project :=
  mapGet Project.id s.projects i

/-- `MemStorage.getExperiment`. -/
def memGetExperiment (i : Nat) (s : StoreState) : Option Experiment :=
  mapGet Experiment.id s.experiments i

/-- `MemStorage.getNote`. -/
def memGetNote (i : Nat) (s : StoreState) : Option Note :=
  mapGet Note.id s.notes i

/-- `MemStorage.getAttachment`. -/
def memGetAttachment (i : Nat) (s : StoreState) : Option Attachment :=
  mapGet Attachment.id s.attachments i

/-- `MemStorage.listExperimentsByProject`. -/
def memListExperimentsByProject (p : Nat) (s : StoreState) : List Experiment :=
  s.experiments.filter (fun e => e.projectId == p)

/-- `MemStorage.listNotesByExperiment`. -/
def memListNotesByExperiment (e : Nat) (s : StoreState) : List Note :=
  s.notes.filter (fun n => n.experimentId == e)

/-- `MemStorage.listAttachmentsByNote`. -/
def memListAttachmentsByNote (n : Nat) (s : StoreState) : List Attachment :=
  s.attachments.filter (fun a => a.noteId == n)

/-- `MemStorage.listCollaboratorsByProject`. -/
def memListCollaboratorsByProject (p : Nat) (s : StoreState) : List ProjectCollaborator :=
  s.projectCollaborators.filter (fun c => c.projectId == p)

/-- `MemStorage.listProjectsByUser`: filter owned projects, look up the
projects of the user's collaborator rows (dropping dangling ones, the
`.filter(Boolean)`), then `[...new Set([...])]`. -/
def memListProjectsByUser (u : Nat) (s : StoreState) : List Project :=
  let userProjects := s.projects.filter (fun p => p.ownerId == u)
  let collaboratorProjects :=
    (s.projectCollaborators.filter (fun c => c.userId == u)).filterMap
      (fun c => mapGet Project.id s.projects c.projectId)
  jsSetDedup (userProjects ++ collaboratorProjects)

/-- `MemStorage.createProject`: next counter value as id, `createdAt` and
`updatedAt` stamped with the clock, record stored under its id. -/
def memCreateProject (now : Nat) (ins : InsertProject) (s : StoreState) :
    Project × StoreState :=
  let p : Project :=
    { id := s.projectId, name := ins.name, description := ins.description,
      createdAt := now, updatedAt := now, ownerId := ins.ownerId }
  (p, { s with projects := mapSet Project.id s.projects p,
               projectId := s.projectId + 1 })

/-- `MemStorage.createExperiment`. -/
def memCreateExperiment (now : Nat) (ins : InsertExperiment) (s : StoreState) :
    Experiment × StoreState :=
  let e : Experiment :=
    { id := s.experimentId, name := ins.name, description := ins.description,
      projectId := ins.projectId, createdAt := now, updatedAt := now }
  (e, { s with experiments := mapSet Experiment.id s.experiments e,
               experimentId := s.experimentId + 1 })

/-- `MemStorage.createNote`. -/
def memCreateNote (now : Nat) (ins : InsertNote) (s : StoreState) :
    Note × StoreState :=
  let n : Note :=
    { id := s.noteId, title := ins.title, content := ins.content,
      experimentId := ins.experimentId, authorId := ins.authorId,
      createdAt := now, updatedAt := now }
  (n, { s with notes := mapSet Note.id s.notes n, noteId := s.noteId + 1 })

/-- `MemStorage.createAttachment`. -/
def memCreateAttachment (now : Nat) (ins : InsertAttachment) (s : StoreState) :
    Attachment × StoreState :=
  let a : Attachment :=
    { id := s.attachmentId, fileName := ins.fileName, fileSize := ins.fileSize,
      fileType := ins.fileType, fileData := ins.fileData, noteId := ins.noteId,
      createdAt := now }
  (a, { s with attachments := mapSet Attachment.id s.attachments a,
               attachmentId := s.attachmentId + 1 })

/-- `MemStorage.addCollaborator`. -/
def memAddCollaborator (ins : InsertProjectCollaborator) (s : StoreState) :
    ProjectCollaborator × StoreState :=
  let c : ProjectCollaborator :=
    { id := s.collaboratorId, projectId := ins.projectId, userId := ins.userId,
      role := ins.role }
  (c, { s with projectCollaborators := mapSet ProjectCollaborator.id s.projectCollaborators c,
               collaboratorId := s.collaboratorId + 1 })

/-- The spread `{...existing, ...update, updatedAt: new Date()}` for
projects: keys present in the partial shape overwrite, the rest keep their
prior values; `id` and `createdAt` are not part of the insert shape and are
therefore never touched. -/
def mergeProject (ex : Project) (u : PartialProject) (now : Nat) : Project :=
  { id := ex.id, name := u.name.getD ex.name,
    description := u.description.getD ex.description,
    createdAt := ex.createdAt, updatedAt := now,
    ownerId := u.ownerId.getD ex.ownerId }

/-- The project-update spread for experiments. -/
def mergeExperiment (ex : Experiment) (u : PartialExperiment) (now : Nat) : Experiment :=
  { id := ex.id, name := u.name.getD ex.name,
    description := u.description.getD ex.description,
    projectId := u.projectId.getD ex.projectId,
    createdAt := ex.createdAt, updatedAt := now }

/-- The project-update spread for notes. -/
def mergeNote (ex : Note) (u : PartialNote) (now : Nat) : Note :=
  { id := ex.id, title := u.title.getD ex.title,
    content := u.content.getD ex.content,
    experimentId := u.experimentId.getD ex.experimentId,
    authorId := u.authorId.getD ex.authorId,
    createdAt := ex.createdAt, updatedAt := now }

/-- `MemStorage.updateProject`: `undefined` when the id is absent, otherwise
the merged record is stored and returned. -/
def memUpdateProject (now : Nat) (i : Nat) (u : PartialProject) (s : StoreState) :
    Option Project × StoreState :=
  match mapGet Project.id s.projects i with
  | none => (none, s)
  | some ex =>
    let up := mergeProject ex u now
    (some up, { s with projects := mapSet Project.id s.projects up })

/-- `MemStorage.updateExperiment`. -/
def memUpdateExperiment (now : Nat) (i : Nat) (u : PartialExperiment) (s : StoreState) :
    Option Experiment × StoreState :=
  match mapGet Experiment.id s.experiments i with
  | none => (none, s)
  | some ex =>
    let up := mergeExperiment ex u now
    (some up, { s with experiments := mapSet Experiment.id s.experiments up })

/-- `MemStorage.updateNote`. -/
def memUpdateNote (now : Nat) (i : Nat) (u : PartialNote) (s : StoreState) :
    Option Note × StoreState :=
  match mapGet Note.id s.notes i with
  | none => (none, s)
  | some ex =>
    let up := mergeNote ex u now
    (some up, { s with notes := mapSet Note.id s.notes up })

/-- `MemStorage.deleteAttachment`. -/
def memDeleteAttachment (i : Nat) (s : StoreState) : Bool × StoreState :=
  let r := mapDelete Attachment.id s.attachments i
  (r.1, { s with attachments := r.2 })

/-- `MemStorage.deleteNote`: snapshot the note's attachments, delete each by
id, then delete the note itself. -/
def memDeleteNote (i : Nat) (s : StoreState) : Bool × StoreState :=
  let noteAttachments := memListAttachmentsByNote i s
  let s1 := noteAttachments.foldl (fun st a => (memDeleteAttachment a.id st).2) s
  let r := mapDelete Note.id s1.notes i
  (r.1, { s1 with notes := r.2 })

/-- `MemStorage.deleteExperiment`: snapshot the experiment's notes, run
`deleteNote` on each, then delete the experiment itself. -/
def memDeleteExperiment (i : Nat) (s : StoreState) : Bool × StoreState :=
  let experimentNotes := memListNotesByExperiment i s
  let s1 := experimentNotes.foldl (fun st n => (memDeleteNote n.id st).2) s
  let r := mapDelete Experiment.id s1.experiments i
  (r.1, { s1 with experiments := r.2 })

/-- `MemStorage.removeCollaborator`: find the first row with this
project/user pair; `false` when there is none, otherwise delete it by id. -/
def memRemoveCollaborator (p u : Nat) (s : StoreState) : Bool × StoreState :=
  match s.projectCollaborators.find? (fun c => c.projectId == p && c.userId == u) with
  | none => (false, s)
  | some c =>
    let r := mapDelete ProjectCollaborator.id s.projectCollaborators c.id
    (r.1, { s with projectCollaborators := r.2 })

/-- `MemStorage.deleteProject`: run `deleteExperiment` on each child
experiment, `removeCollaborator` on each collaborator row, then delete the
project itself. -/
def memDeleteProject (i : Nat) (s : StoreState) : Bool × StoreState :=
  let projectExperiments := memListExperimentsByProject i s
  let s1 := projectExperiments.foldl (fun st e => (memDeleteExperiment e.id st).2) s
  let collaborators := memListCollaboratorsByProject i s1
  let s2 := collaborators.foldl (fun st c => (memRemoveCollaborator i c.userId st).2) s1
  let r := mapDelete Project.id s2.projects i
  (r.1, { s2 with projects := r.2 })

/-- `MemStorage.searchNotes`: `if (!query) return []` (the empty string is
the falsy string), then case-insensitive substring match on title and, when
the content is truthy, on content. -/
def memSearchNotes (q : String) (s : StoreState) : List Note :=
  if q == "" then []
  else
    let lowercaseQuery := strLower q
    s.notes.filter (fun n =>
      strIncludes (strLower n.title) lowercaseQuery ||
      (jsTruthy n.content &&
        strIncludes (strLower (n.content.getD "")) lowercaseQuery))

/-- `MemStorage.searchProjects`. -/
def memSearchProjects (q : String) (s : StoreState) : List Project :=
  if q == "" then []
  else
    let lowercaseQuery := strLower q
    s.projects.filter (fun p =>
      strIncludes (strLower p.name) lowercaseQuery ||
      (jsTruthy p.description &&
        strIncludes (strLower (p.description.getD "")) lowercaseQuery))

/-- `MemStorage.searchExperiments`. -/
def memSearchExperiments (q : String) (s : StoreState) : List Experiment :=
  if q == "" then []
  else
    let lowercaseQuery := strLower q
    s.experiments.filter (fun e =>
      strIncludes (strLower e.name) lowercaseQuery ||
      (jsTruthy e.description &&
        strIncludes (strLower (e.description.getD "")) lowercaseQuery))

/-! ## `DatabaseStorage`

Each drizzle query is modelled on the same `StoreState`: `select ... where p`
is `filter p`, `delete ... where p` removes the matching rows and reports the
matched count as `rowCount`, `insert` appends a row carrying the next serial
id, `update ... set u where p` merges `u` into every matching row.  -/

/-- `DatabaseStorage.getProject` (`select where id, take the first row`). -/
def dbGetProject (i : Nat) (s : StoreState) : Option Project :=
  (s.projects.filter (fun p => p.id == i)).head?

/-- `DatabaseStorage.getExperiment`. -/
def dbGetExperiment (i : Nat) (s : StoreState) : Option Experiment :=
  (s.experiments.filter (fun e => e.id == i)).head?

/-- `DatabaseStorage.getNote`. -/
def dbGetNote (i : Nat) (s : StoreState) : Option Note :=
  (s.notes.filter (fun n => n.id == i)).head?

/-- `DatabaseStorage.getAttachment`. -/
def dbGetAttachment (i : Nat) (s : StoreState) : Option Attachment :=
  (s.attachments.filter (fun a => a.id == i)).head?

/-- `DatabaseStorage.listExperimentsByProject`. -/
def dbListExperimentsByProject (p : Nat) (s : StoreState) : List Experiment :=
  s.experiments.filter (fun e => e.projectId == p)

/-- `DatabaseStorage.listNotesByExperiment` (the `orderBy desc(updatedAt)` is
a stable reordering irrelevant to the membership claims and left out). -/
def dbListNotesByExperiment (e : Nat) (s : StoreState) : List Note :=
  s.notes.filter (fun n => n.experimentId == e)

/-- `DatabaseStorage.listAttachmentsByNote`. -/
def dbListAttachmentsByNote (n : Nat) (s : StoreState) : List Attachment :=
  s.attachments.filter (fun a => a.noteId == n)

/-- `DatabaseStorage.listCollaboratorsByProject`. -/
def dbListCollaboratorsByProject (p : Nat) (s : StoreState) : List ProjectCollaborator :=
  s.projectCollaborators.filter (fun c => c.projectId == p)

/-- `DatabaseStorage.listProjectsByUser`: one query for owned projects, one
for the user's collaborator rows, then a third for the collaborated projects
(`or` over the collected ids, skipped when there are none); the two result
lists are concatenated as `[...ownedProjects, ...collabProjects]`. -/
def dbListProjectsByUser (u : Nat) (s : StoreState) : List Project :=
  let ownedProjects := s.projects.filter (fun p => p.ownerId == u)
  let collaboratedProjectIds :=
    (s.projectCollaborators.filter (fun c => c.userId == u)).map (fun c => c.projectId)
  let collabProjects :=
    if 0 < collaboratedProjectIds.length then
      s.projects.filter (fun p => collaboratedProjectIds.any (fun j => p.id == j))
    else []
  ownedProjects ++ collabProjects

/-- `DatabaseStorage.createProject` (insert with serial id and `defaultNow()`
timestamps, `returning` the new row). -/
def dbCreateProject (now : Nat) (ins : InsertProject) (s : StoreState) :
    Project × StoreState :=
  let p : Project :=
    { id := s.projectId, name := ins.name, description := ins.description,
      createdAt := now, updatedAt := now, ownerId := ins.ownerId }
  (p, { s with projects := s.projects ++ [p], projectId := s.projectId + 1 })

/-- `DatabaseStorage.createExperiment`. -/
def dbCreateExperiment (now : Nat) (ins : InsertExperiment) (s : StoreState) :
    Experiment × StoreState :=
  let e : Experiment :=
    { id := s.experimentId, name := ins.name, description := ins.description,
      projectId := ins.projectId, createdAt := now, updatedAt := now }
  (e, { s with experiments := s.experiments ++ [e],
               experimentId := s.experimentId + 1 })

/-- `DatabaseStorage.createNote`. -/
def dbCreateNote (now : Nat) (ins : InsertNote) (s : StoreState) :
    Note × StoreState :=
  let n : Note :=
    { id := s.noteId, title := ins.title, content := ins.content,
      experimentId := ins.experimentId, authorId := ins.authorId,
      createdAt := now, updatedAt := now }
  (n, { s with notes := s.notes ++ [n], noteId := s.noteId + 1 })

/-- `DatabaseStorage.createAttachment`. -/
def dbCreateAttachment (now : Nat) (ins : InsertAttachment) (s : StoreState) :
    Attachment × StoreState :=
  let a : Attachment :=
    { id := s.attachmentId, fileName := ins.fileName, fileSize := ins.fileSize,
      fileType := ins.fileType, fileData := ins.fileData, noteId := ins.noteId,
      createdAt := now }
  (a, { s with attachments := s.attachments ++ [a],
               attachmentId := s.attachmentId + 1 })

/-- `DatabaseStorage.addCollaborator` (plain insert, no uniqueness check on
the project/user pair — the table has only the serial primary key). -/
def dbAddCollaborator (ins : InsertProjectCollaborator) (s : StoreState) :
    ProjectCollaborator × StoreState :=
  let c : ProjectCollaborator :=
    { id := s.collaboratorId, projectId := ins.projectId, userId := ins.userId,
      role := ins.role }
  (c, { s with projectCollaborators := s.projectCollaborators ++ [c],
               collaboratorId := s.collaboratorId + 1 })

/-- `DatabaseStorage.updateProject`: one `update ... set {…update, updatedAt}
where id` statement; `returning` yields the merged rows, the code takes the
first (or `undefined`). -/
def dbUpdateProject (now : Nat) (i : Nat) (u : PartialProject) (s : StoreState) :
    Option Project × StoreState :=
  (((s.projects.filter (fun p => p.id == i)).map (fun p => mergeProject p u now)).head?,
   { s with projects := s.projects.map (fun p => if p.id == i then mergeProject p u now else p) })

/-- `DatabaseStorage.updateExperiment`. -/
def dbUpdateExperiment (now : Nat) (i : Nat) (u : PartialExperiment) (s : StoreState) :
    Option Experiment × StoreState :=
  (((s.experiments.filter (fun e => e.id == i)).map (fun e => mergeExperiment e u now)).head?,
   { s with experiments := s.experiments.map (fun e => if e.id == i then mergeExperiment e u now else e) })

/-- `DatabaseStorage.updateNote`. -/
def dbUpdateNote (now : Nat) (i : Nat) (u : PartialNote) (s : StoreState) :
    Option Note × StoreState :=
  (((s.notes.filter (fun n => n.id == i)).map (fun n => mergeNote n u now)).head?,
   { s with notes := s.notes.map (fun n => if n.id == i then mergeNote n u now else n) })

/-- `DatabaseStorage.deleteAttachment`. -/
def dbDeleteAttachment (i : Nat) (s : StoreState) : Bool × StoreState :=
  (decide (0 < s.attachments.countP (fun a => a.id == i)),
   { s with attachments := s.attachments.filter (fun a => a.id != i) })

/-- `DatabaseStorage.deleteNote`: delete the note's attachments, then the
note; report `rowCount > 0` of the final statement. -/
def dbDeleteNote (i : Nat) (s : StoreState) : Bool × StoreState :=
  let s1 := { s with attachments := s.attachments.filter (fun a => a.noteId != i) }
  (decide (0 < s1.notes.countP (fun n => n.id == i)),
   { s1 with notes := s1.notes.filter (fun n => n.id != i) })

/-- `DatabaseStorage.deleteExperiment`: select the experiment's note ids,
delete each note's attachments, delete the notes, delete the experiment. -/
def dbDeleteExperiment (i : Nat) (s : StoreState) : Bool × StoreState :=
  let experimentNotes := s.notes.filter (fun n => n.experimentId == i)
  let s1 := experimentNotes.foldl
    (fun st n => { st with attachments := st.attachments.filter (fun a => a.noteId != n.id) }) s
  let s2 := { s1 with notes := s1.notes.filter (fun n => n.experimentId != i) }
  let cnt : Nat := s2.experiments.countP (fun e => e.id == i)
  (decide (0 < cnt),
   { s2 with experiments := s2.experiments.filter (fun e => e.id != i) })

/-- `DatabaseStorage.removeCollaborator` (`delete where projectId and
userId`; removes every matching row at once). -/
def dbRemoveCollaborator (p u : Nat) (s : StoreState) : Bool × StoreState :=
  (decide (0 < s.projectCollaborators.countP (fun c => c.projectId == p && c.userId == u)),
   { s with projectCollaborators :=
       s.projectCollaborators.filter (fun c => !(c.projectId == p && c.userId == u)) })

/-- `DatabaseStorage.deleteProject`: the explicit multi-statement cascade —
attachments of each note of each child experiment, then those notes, then
the experiments, the collaborator rows, and finally the project row, whose
`rowCount` becomes the returned flag.  The source wraps none of this in a
transaction. -/
def dbDeleteProject (i : Nat) (s : StoreState) : Bool × StoreState :=
  let projectExperiments := s.experiments.filter (fun e => e.projectId == i)
  let s1 := projectExperiments.foldl
    (fun st e =>
      let expNotes := st.notes.filter (fun n => n.experimentId == e.id)
      let st1 := expNotes.foldl
        (fun st2 n => { st2 with attachments := st2.attachments.filter (fun a => a.noteId != n.id) }) st
      { st1 with notes := st1.notes.filter (fun n => n.experimentId != e.id) }) s
  let s2 := { s1 with experiments := s1.experiments.filter (fun e => e.projectId != i) }
  let s3 := { s2 with projectCollaborators := s2.projectCollaborators.filter (fun c => c.projectId != i) }
  let cnt : Nat := s3.projects.countP (fun p => p.id == i)
  (decide (0 < cnt),
   { s3 with projects := s3.projects.filter (fun p => p.id != i) })

/-- One delete statement of the cascade under a statement budget: with no
budget left the statement's effect is lost (the backend failed before it),
otherwise it commits and the budget shrinks.  Because the source issues the
statements without a wrapping transaction, the effects of the statements
already executed persist. -/
def runStatement (f : StoreState → StoreState) : Nat × StoreState → Nat × StoreState
  | (0, st) => (0, st)
  | (k + 1, st) => (k, f st)

/-- `DatabaseStorage.deleteProject` interrupted after `fuel` delete
statements: the same statement sequence as `dbDeleteProject`, each delete
routed through `runStatement`. -/
def dbDeleteProjectUpTo (fuel : Nat) (i : Nat) (s : StoreState) : StoreState :=
  let projectExperiments := s.experiments.filter (fun e => e.projectId == i)
  let fs1 := projectExperiments.foldl
    (fun fs e =>
      let expNotes := fs.2.notes.filter (fun n => n.experimentId == e.id)
      let fsa := expNotes.foldl
        (fun fs2 n => runStatement
          (fun st => { st with attachments := st.attachments.filter (fun a => a.noteId != n.id) }) fs2) fs
      runStatement
        (fun st => { st with notes := st.notes.filter (fun n => n.experimentId != e.id) }) fsa)
    (fuel, s)
  let fs2 := runStatement
    (fun st => { st with experiments := st.experiments.filter (fun e => e.projectId != i) }) fs1
  let fs3 := runStatement
    (fun st => { st with projectCollaborators := st.projectCollaborators.filter (fun c => c.projectId != i) }) fs2
  (runStatement (fun st => { st with projects := st.projects.filter (fun p => p.id != i) }) fs3).2

/-- `DatabaseStorage.searchNotes`: `LIKE '%' + query + '%'` on the title or
the content column (drizzle's `notes.content || ''` is the truthy column
object, so the generated SQL is a plain `content LIKE …`; a SQL `NULL`
content never matches). -/
def dbSearchNotes (q : String) (s : StoreState) : List Note :=
  let searchTerm := "%" ++ q ++ "%"
  s.notes.filter (fun n =>
    sqlLike n.title searchTerm ||
    (match n.content with
     | some c => sqlLike c searchTerm
     | none => false))

/-- `DatabaseStorage.searchProjects`. -/
def dbSearchProjects (q : String) (s : StoreState) : List Project :=
  let searchTerm := "%" ++ q ++ "%"
  s.projects.filter (fun p =>
    sqlLike p.name searchTerm ||
    (match p.description with
     | some c => sqlLike c searchTerm
     | none => false))

/-- `DatabaseStorage.searchExperiments`. -/
def dbSearchExperiments (q : String) (s : StoreState) : List Experiment :=
  let searchTerm := "%" ++ q ++ "%"
  s.experiments.filter (fun e =>
    sqlLike e.name searchTerm ||
    (match e.description with
     | some c => sqlLike c searchTerm
     | none => false))

/-! ## Well-formedness and sample states -/

/-- States reachable through either backend: every collection is keyed by
pairwise-distinct ids (JS `Map` keys, SQL serial primary keys). -/
def WF (s : StoreState) : Prop :=
  (s.projects.map Project.id).Nodup ∧
  (s.experiments.map Experiment.id).Nodup ∧
  (s.notes.map Note.id).Nodup ∧
  (s.attachments.map Attachment.id).Nodup ∧
  (s.projectCollaborators.map ProjectCollaborator.id).Nodup

instance (s : StoreState) : Decidable (WF s) := by
  unfold WF; infer_instance

/-- A store with one full Project → Experiment → Note → Attachment chain and
one collaborator row (the concrete scenario of the spec's §8). -/
def cascadeStore : StoreState :=
  { users := [],
    projects := [⟨1, "Lab A", none, 0, 0, 1⟩],
    experiments := [⟨1, "Trial 1", none, 1, 0, 0⟩],
    notes := [⟨1, "Obs 1", none, 1, 1, 0, 0⟩],
    attachments := [⟨1, "scan.png", 4, "image/png", "AAAA", 1, 0⟩],
    projectCollaborators := [⟨1, 1, 2, "Viewer"⟩],
    userId := 3, projectId := 2, experimentId := 2, noteId := 2,
    attachmentId := 2, collaboratorId := 2 }

/-- A store exercising the search operations: a note titled "Protein Assay",
a note/project/experiment whose text contains a three-space run. -/
def searchStore : StoreState :=
  { users := [],
    projects := [⟨1, "p   q", none, 0, 0, 1⟩],
    experiments := [⟨1, "e   f", none, 1, 0, 0⟩],
    notes := [⟨1, "Protein Assay", none, 1, 1, 0, 0⟩,
              ⟨2, "a   b", some "x", 1, 1, 0, 0⟩],
    attachments := [], projectCollaborators := [],
    userId := 2, projectId := 2, experimentId := 2, noteId := 3,
    attachmentId := 1, collaboratorId := 2 }

/-- The "Protein Assay" note of `searchStore`. -/
def assayNote : Note := ⟨1, "Protein Assay", none, 1, 1, 0, 0⟩

/-- The whitespace-bearing note of `searchStore`. -/
def spacedNote : Note := ⟨2, "a   b", some "x", 1, 1, 0, 0⟩

/-- A store where user 1 both owns project 1 and is listed as its
collaborator. -/
def dupStore : StoreState :=
  { users := [],
    projects := [⟨1, "Lab A", none, 0, 0, 1⟩],
    experiments := [], notes := [], attachments := [],
    projectCollaborators := [⟨1, 1, 1, "Editor"⟩],
    userId := 2, projectId := 2, experimentId := 1, noteId := 1,
    attachmentId := 1, collaboratorId := 2 }

/-- The project of `dupStore`. -/
def dupProject : Project := ⟨1, "Lab A", none, 0, 0, 1⟩

/-- A store containing an orphaned experiment: its `projectId` is 7 but no
project with id 7 exists. -/
def orphanStore : StoreState :=
  { users := [],
    projects := [], experiments := [⟨1, "Orphan", none, 7, 0, 0⟩],
    notes := [], attachments := [], projectCollaborators := [],
    userId := 1, projectId := 1, experimentId := 2, noteId := 1,
    attachmentId := 1, collaboratorId := 1 }

/-! ## List lemmas about keyed deletion -/

/-- `rowCount > 0` of a predicate delete coincides with `any`. -/
theorem any_eq_decide_countP (p : α → Bool) (l : List α) :
    l.any p = decide (0 < l.countP p) := by
  rcases h : l.any p with _ | _
  · have hn : ¬ 0 < l.countP p := by
      rw [List.countP_pos_iff]
      rintro ⟨a, hal, hpa⟩
      have := List.any_eq_true.mpr ⟨a, hal, hpa⟩
      rw [h] at this
      exact Bool.false_ne_true this
    simp [hn]
  · obtain ⟨a, hal, hpa⟩ := List.any_eq_true.mp h
    have : 0 < l.countP p := List.countP_pos_iff.mpr ⟨a, hal, hpa⟩
    simp [this]

/-- Folding key-based deletions over the keys drawn from `t` removes exactly
the rows whose key one of them matches. -/
theorem foldl_filter_ne (f : α → Nat) (g : β → Nat) :
    ∀ (t : List β) (l : List α),
      t.foldl (fun acc b => acc.filter (fun x => f x != g b)) l
        = l.filter (fun x => t.all (fun b => f x != g b))
  | [], l => by simp
  | b :: t, l => by
    rw [List.foldl_cons, foldl_filter_ne f g t, List.filter_filter]
    apply List.filter_congr
    intro x _
    simp [Bool.and_comm]

/-- With pairwise-distinct keys, deleting the keys of `l.filter p` from `l`
removes exactly the rows satisfying `p`. -/
theorem filter_all_ne_of_nodup (f : α → Nat) (p : α → Bool) (l : List α)
    (h : (l.map f).Nodup) :
    l.filter (fun x => (l.filter p).all (fun b => f x != f b))
      = l.filter (fun x => !(p x)) := by
  apply List.filter_congr
  intro x hx
  rcases hp : p x with _ | _
  · simp only [hp, Bool.not_false]
    rw [List.all_eq_true]
    intro b hb
    rw [List.mem_filter] at hb
    have hne : f x ≠ f b := by
      intro hfe
      have hxb : x = b := List.inj_on_of_nodup_map h hx hb.1 hfe
      rw [hxb, hb.2] at hp
      simp at hp
    simpa using hne
  · simp only [hp, Bool.not_true]
    rw [Bool.eq_false_iff]
    intro hall
    have := List.all_eq_true.mp hall x (List.mem_filter.mpr ⟨hx, hp⟩)
    simp at this

/-- `all` over a filtered list as the negation of an `any`. -/
theorem filter_all_eq_not_any (p q : α → Bool) (l : List α) :
    (l.filter p).all q = !(l.any (fun x => p x && !(q x))) := by
  induction l with
  | nil => rfl
  | cons a l ih =>
    rcases ha : p a with _ | _ <;> rcases hq : q a with _ | _ <;>
      simp [List.filter_cons, ha, hq, ih]

/-! ## Closed forms of the `MemStorage` cascade -/

/-- The attachment-deletion loop of `MemStorage.deleteNote` only rewrites
the attachment collection. -/
theorem attFold : ∀ (t : List Attachment) (s : StoreState),
    t.foldl (fun st a => (memDeleteAttachment a.id st).2) s
      = { s with attachments := t.foldl (fun l a => l.filter (fun x => x.id != a.id)) s.attachments }
  | [], _ => rfl
  | a :: t, s => by
    rw [List.foldl_cons, List.foldl_cons, attFold t]
    rfl

/-- Closed form of `MemStorage.deleteNote` on a store with distinct
attachment ids: the note's attachments disappear, the note row disappears,
the flag records whether the note existed. -/
theorem memDeleteNote_spec (i : Nat) (s : StoreState)
    (ha : (s.attachments.map Attachment.id).Nodup) :
    memDeleteNote i s =
      (s.notes.any (fun n => n.id == i),
       { s with notes := s.notes.filter (fun n => n.id != i),
                attachments := s.attachments.filter (fun a => a.noteId != i) }) := by
  unfold memDeleteNote memListAttachmentsByNote
  dsimp only
  rw [attFold, foldl_filter_ne Attachment.id Attachment.id,
      filter_all_ne_of_nodup Attachment.id (fun a => a.noteId == i) s.attachments ha]
  rfl

/-- Filtering preserves distinctness of the mapped keys. -/
theorem nodup_filter_map (f : α → Nat) (p : α → Bool) (l : List α)
    (h : (l.map f).Nodup) : ((l.filter p).map f).Nodup :=
  List.Nodup.sublist ((List.filter_sublist l).map f) h

/-- The note-deletion loop of `MemStorage.deleteExperiment`: each iteration
removes one note and its attachments. -/
theorem noteFold : ∀ (t : List Note) (s : StoreState),
    (s.attachments.map Attachment.id).Nodup →
    t.foldl (fun st n => (memDeleteNote n.id st).2) s =
      { s with notes := s.notes.filter (fun x => t.all (fun n => x.id != n.id)),
               attachments := s.attachments.filter (fun a => t.all (fun n => a.noteId != n.id)) }
  | [], s => fun _ => by simp
  | n :: t, s => fun ha => by
    rw [List.foldl_cons, congrArg Prod.snd (memDeleteNote_spec n.id s ha)]
    rw [noteFold t _ (nodup_filter_map Attachment.id (fun a => a.noteId != n.id) s.attachments ha)]
    dsimp only
    have hnotes :
        (s.notes.filter (fun x => x.id != n.id)).filter (fun x => t.all (fun m => x.id != m.id))
          = s.notes.filter (fun x => (n :: t).all (fun m => x.id != m.id)) := by
      rw [List.filter_filter]
      apply List.filter_congr
      intro x _
      simp [Bool.and_comm]
    have hatt :
        (s.attachments.filter (fun a => a.noteId != n.id)).filter (fun a => t.all (fun m => a.noteId != m.id))
          = s.attachments.filter (fun a => (n :: t).all (fun m => a.noteId != m.id)) := by
      rw [List.filter_filter]
      apply List.filter_congr
      intro a _
      simp [Bool.and_comm]
    rw [hnotes, hatt]

/-- Closed form of `MemStorage.deleteExperiment` on a store with distinct
note and attachment ids: the experiment row, its notes and their
attachments disappear. -/
theorem memDeleteExperiment_spec (i : Nat) (s : StoreState)
    (hn : (s.notes.map Note.id).Nodup) (ha : (s.attachments.map Attachment.id).Nodup) :
    memDeleteExperiment i s =
      (s.experiments.any (fun e => e.id == i),
       { s with experiments := s.experiments.filter (fun e => e.id != i),
                notes := s.notes.filter (fun n => !(n.experimentId == i)),
                attachments := s.attachments.filter (fun a =>
                  !(s.notes.any (fun n => n.experimentId == i && a.noteId == n.id))) }) := by
  unfold memDeleteExperiment memListNotesByExperiment
  dsimp only
  rw [noteFold _ _ ha]
  dsimp only
  rw [filter_all_ne_of_nodup Note.id (fun n => n.experimentId == i) s.notes hn]
  have hatt :
      s.attachments.filter (fun a =>
          (s.notes.filter (fun n => n.experimentId == i)).all (fun n => a.noteId != n.id))
        = s.attachments.filter (fun a =>
          !(s.notes.any (fun n => n.experimentId == i && a.noteId == n.id))) := by
    apply List.filter_congr
    intro a _
    rw [filter_all_eq_not_any]
    have harg : (fun n : Note => n.experimentId == i && !(a.noteId != n.id))
        = (fun n : Note => n.experimentId == i && a.noteId == n.id) := by
      funext n
      simp [bne, Bool.not_not]
    rw [harg]
  rw [hatt]
  rfl

/-- The experiment-deletion loop of `MemStorage.deleteProject`: folding
`deleteExperiment` over the experiments of `t` removes those experiment
rows, every note referencing one of them, and every attachment referencing
such a note. -/
theorem expFold : ∀ (t : List Experiment) (s : StoreState),
    (s.notes.map Note.id).Nodup → (s.attachments.map Attachment.id).Nodup →
    t.foldl (fun st e => (memDeleteExperiment e.id st).2) s =
      { s with
        experiments := s.experiments.filter (fun x => t.all (fun e => x.id != e.id)),
        notes := s.notes.filter (fun x => t.all (fun e => !(x.experimentId == e.id))),
        attachments := s.attachments.filter (fun a =>
          !(s.notes.any (fun n => t.any (fun e => n.experimentId == e.id) && a.noteId == n.id))) }
  | [], s => fun _ _ => by
    have h : (s.notes.any fun _ => false) = false := by
      induction s.notes with
      | nil => rfl
      | cons _ _ ih => simp [ih]
    simp [h]
  | e :: t, s => fun hn ha => by
    rw [List.foldl_cons, congrArg Prod.snd (memDeleteExperiment_spec e.id s hn ha)]
    rw [expFold t _ (nodup_filter_map Note.id (fun n => !(n.experimentId == e.id)) s.notes hn)
          (nodup_filter_map Attachment.id
            (fun a => !(s.notes.any (fun n => n.experimentId == e.id && a.noteId == n.id)))
            s.attachments ha)]
    dsimp only
    have hexp :
        (s.experiments.filter (fun x => x.id != e.id)).filter (fun x => t.all (fun m => x.id != m.id))
          = s.experiments.filter (fun x => (e :: t).all (fun m => x.id != m.id)) := by
      rw [List.filter_filter]
      apply List.filter_congr
      intro x _
      simp [Bool.and_comm]
    have hnotes :
        (s.notes.filter (fun n => !(n.experimentId == e.id))).filter
            (fun x => t.all (fun m => !(x.experimentId == m.id)))
          = s.notes.filter (fun x => (e :: t).all (fun m => !(x.experimentId == m.id))) := by
      rw [List.filter_filter]
      apply List.filter_congr
      intro x _
      simp [Bool.and_comm]
    have hatt :
        (s.attachments.filter (fun a =>
            !(s.notes.any (fun n => n.experimentId == e.id && a.noteId == n.id)))).filter
            (fun a => !((s.notes.filter (fun n => !(n.experimentId == e.id))).any
              (fun n => t.any (fun m => n.experimentId == m.id) && a.noteId == n.id)))
          = s.attachments.filter (fun a =>
              !(s.notes.any (fun n =>
                (e :: t).any (fun m => n.experimentId == m.id) && a.noteId == n.id))) := by
      rw [List.filter_filter]
      apply List.filter_congr
      intro a _
      rw [Bool.eq_iff_iff]
      simp only [Bool.and_eq_true, Bool.not_eq_true', List.any_eq_false, List.any_eq_true,
                 List.mem_filter, beq_iff_eq, beq_eq_false_iff_ne, List.any_cons, Bool.or_eq_true]
      constructor
      · rintro ⟨h1, h2⟩ n hmem hcond
        rcases hcond.1 with hc | hc
        · exact h2 n hmem ⟨hc, hcond.2⟩
        · rcases Classical.em (n.experimentId = e.id) with he | he
          · exact h2 n hmem ⟨he, hcond.2⟩
          · exact h1 n ⟨hmem, he⟩ ⟨hc, hcond.2⟩
      · intro h
        constructor
        · rintro n ⟨hmem, _⟩ hcond
          exact h n hmem ⟨Or.inr hcond.1, hcond.2⟩
        · rintro n hmem hcond
          exact h n hmem ⟨Or.inl hcond.1, hcond.2⟩
    rw [hexp, hnotes, hatt]

/-- When the first `p`-row of `l` is `c` and `q` is a refinement of `p`
satisfied by `c`, then `c` is also the first `q`-row of `l`. -/
theorem find?_first_of_filter (p q : α → Bool) :
    ∀ (l : List α) (c : α) (t : List α),
      l.filter p = c :: t → q c = true → (∀ x, q x = true → p x = true) →
      l.find? q = some c
  | [], c, t => by
    intro hf
    simp at hf
  | x :: l, c, t => fun hf hq himp => by
    rcases hp : p x with _ | _
    · have hqx : ¬ q x = true := by
        intro hqq
        rw [himp x hqq] at hp
        simp at hp
      rw [List.find?_cons_of_neg _ hqx]
      apply find?_first_of_filter p q l c t _ hq himp
      rw [List.filter_cons] at hf
      simp only [hp] at hf
      exact hf
    · rw [List.filter_cons] at hf
      simp only [hp, if_true] at hf
      obtain ⟨rfl, -⟩ := List.cons.injEq .. ▸ hf
      exact List.find?_cons_of_pos _ hq

/-- The collaborator-removal loop of `MemStorage.deleteProject`: iterating
`removeCollaborator` over the snapshot of the project's collaborator rows
removes exactly those rows.  (Each call deletes the first row with the
matching project/user pair, which is always the snapshot row at hand.) -/
theorem collabFold (i : Nat) :
    ∀ (t : List ProjectCollaborator) (s : StoreState),
      (s.projectCollaborators.map ProjectCollaborator.id).Nodup →
      s.projectCollaborators.filter (fun c => c.projectId == i) = t →
      t.foldl (fun st c => (memRemoveCollaborator i c.userId st).2) s =
        { s with projectCollaborators :=
            s.projectCollaborators.filter (fun c => c.projectId != i) }
  | [], s => fun _ hf => by
    rw [List.foldl_nil]
    have hall : s.projectCollaborators.filter (fun c => c.projectId != i)
        = s.projectCollaborators := by
      rw [List.filter_eq_self]
      intro a ha
      have := List.filter_eq_nil_iff.mp hf a ha
      simpa using this
    rw [hall]
  | c :: t, s => fun hnd hf => by
    rw [List.foldl_cons]
    have hcmem : c ∈ s.projectCollaborators ∧ (c.projectId == i) = true := by
      have hc : c ∈ s.projectCollaborators.filter (fun x => x.projectId == i) := by
        rw [hf]
        exact List.mem_cons_self _ _
      exact List.mem_filter.mp hc
    have hfind : s.projectCollaborators.find?
        (fun x => x.projectId == i && x.userId == c.userId) = some c :=
      find?_first_of_filter (fun x => x.projectId == i) _ s.projectCollaborators c t hf
        (by simp [hcmem.2]) (fun x hx => (Bool.and_eq_true_iff.mp hx).1)
    have hstep : (memRemoveCollaborator i c.userId s).2 =
        { s with projectCollaborators :=
            s.projectCollaborators.filter (fun x => x.id != c.id) } := by
      unfold memRemoveCollaborator
      rw [hfind]
      rfl
    rw [hstep]
    have hids : ∀ x ∈ t, (x.id != c.id) = true := by
      have hsub : List.Sublist (c :: t) s.projectCollaborators := hf ▸ List.filter_sublist _
      have hnd2 : ((c :: t).map ProjectCollaborator.id).Nodup :=
        List.Nodup.sublist (hsub.map _) hnd
      rw [List.map_cons, List.nodup_cons] at hnd2
      intro x hx
      simp only [bne_iff_ne, ne_eq]
      intro hxc
      exact hnd2.1 (hxc ▸ List.mem_map_of_mem _ hx)
    have hf' : (s.projectCollaborators.filter (fun x => x.id != c.id)).filter
        (fun x => x.projectId == i) = t := by
      rw [List.filter_filter]
      have hsplit : s.projectCollaborators.filter (fun x => x.projectId == i && x.id != c.id)
          = (s.projectCollaborators.filter (fun x => x.projectId == i)).filter
              (fun x => x.id != c.id) := by
        rw [List.filter_filter]
        apply List.filter_congr
        intro x _
        exact Bool.and_comm _ _
      rw [hsplit, hf, List.filter_cons]
      simp only [bne_self_eq_false, if_false, Bool.false_eq_true, ite_false]
      rw [List.filter_eq_self]
      exact hids
    have hnd' := nodup_filter_map ProjectCollaborator.id (fun x => x.id != c.id)
      s.projectCollaborators hnd
    rw [collabFold i t _ hnd' hf']
    dsimp only
    rw [List.filter_filter]
    have hlast : s.projectCollaborators.filter (fun x => x.projectId != i && x.id != c.id)
        = s.projectCollaborators.filter (fun x => x.projectId != i) := by
      apply List.filter_congr
      intro x hx
      rcases hpx : (x.projectId != i) with _ | _
      · simp [hpx]
      · have hxc : (x.id != c.id) = true := by
          simp only [bne_iff_ne, ne_eq]
          intro he
          have hxe : x = c := List.inj_on_of_nodup_map hnd hx hcmem.1 he
          rw [hxe] at hpx
          rw [bne] at hpx
          rw [hcmem.2] at hpx
          simp at hpx
        simp [hpx, hxc]
    rw [hlast]

/-- Closed form of `MemStorage.deleteProject` on a well-formed store: the
project row, its experiments, their notes, those notes' attachments and the
project's collaborator rows all disappear; the flag records whether the
project row existed. -/
theorem memDeleteProject_spec (i : Nat) (s : StoreState) (hwf : WF s) :
    memDeleteProject i s =
      (s.projects.any (fun p => p.id == i),
       { s with
          projects := s.projects.filter (fun p => p.id != i),
          experiments := s.experiments.filter (fun x =>
            (s.experiments.filter (fun e => e.projectId == i)).all (fun e => x.id != e.id)),
          notes := s.notes.filter (fun x =>
            (s.experiments.filter (fun e => e.projectId == i)).all (fun e => !(x.experimentId == e.id))),
          attachments := s.attachments.filter (fun a =>
            !(s.notes.any (fun n =>
              (s.experiments.filter (fun e => e.projectId == i)).any (fun e => n.experimentId == e.id)
                && a.noteId == n.id))),
          projectCollaborators := s.projectCollaborators.filter (fun c => c.projectId != i) }) := by
  obtain ⟨-, -, hn, ha, hc⟩ := hwf
  unfold memDeleteProject memListExperimentsByProject memListCollaboratorsByProject
  dsimp only
  rw [expFold _ _ hn ha]
  dsimp only
  rw [collabFold i]
  · rfl
  · exact hc
  · rfl

/-- The attachment-deletion statements inside the relational cascades only
rewrite the attachment relation. -/
theorem dbAttFold : ∀ (t : List Note) (st : StoreState),
    t.foldl (fun st2 n =>
        { st2 with attachments := st2.attachments.filter (fun a => a.noteId != n.id) }) st
      = { st with attachments :=
            t.foldl (fun l n => l.filter (fun a => a.noteId != n.id)) st.attachments }
  | [], _ => rfl
  | n :: t, st => by
    rw [List.foldl_cons, List.foldl_cons, dbAttFold t]

/-- One iteration of the experiment loop of `DatabaseStorage.deleteProject`:
delete the attachments of each of the experiment's notes, then its notes. -/
theorem dbExpStep (e : Experiment) (st : StoreState) :
    (let expNotes := st.notes.filter (fun n => n.experimentId == e.id)
     let st1 := expNotes.foldl
       (fun st2 n => { st2 with attachments := st2.attachments.filter (fun a => a.noteId != n.id) }) st
     { st1 with notes := st1.notes.filter (fun n => n.experimentId != e.id) })
    = { st with
        notes := st.notes.filter (fun n => !(n.experimentId == e.id)),
        attachments := st.attachments.filter (fun a =>
          !(st.notes.any (fun n => n.experimentId == e.id && a.noteId == n.id))) } := by
  dsimp only
  rw [dbAttFold, foldl_filter_ne Attachment.noteId Note.id]
  have hatt : st.attachments.filter (fun a =>
        (st.notes.filter (fun n => n.experimentId == e.id)).all (fun n => a.noteId != n.id))
      = st.attachments.filter (fun a =>
        !(st.notes.any (fun n => n.experimentId == e.id && a.noteId == n.id))) := by
    apply List.filter_congr
    intro a _
    rw [filter_all_eq_not_any]
    have harg : (fun n : Note => n.experimentId == e.id && !(a.noteId != n.id))
        = (fun n : Note => n.experimentId == e.id && a.noteId == n.id) := by
      funext n
      simp [bne, Bool.not_not]
    rw [harg]
  rw [hatt]
  rfl

/-- The experiment loop of `DatabaseStorage.deleteProject`: folding the
per-experiment deletions over `t` removes every note of an experiment of `t`
and every attachment of such a note. -/
theorem dbExpFold : ∀ (t : List Experiment) (s : StoreState),
    t.foldl (fun st e =>
        let expNotes := st.notes.filter (fun n => n.experimentId == e.id)
        let st1 := expNotes.foldl
          (fun st2 n => { st2 with attachments := st2.attachments.filter (fun a => a.noteId != n.id) }) st
        { st1 with notes := st1.notes.filter (fun n => n.experimentId != e.id) }) s =
      { s with
        notes := s.notes.filter (fun x => t.all (fun e => !(x.experimentId == e.id))),
        attachments := s.attachments.filter (fun a =>
          !(s.notes.any (fun n => t.any (fun e => n.experimentId == e.id) && a.noteId == n.id))) }
  | [], s => by
    have h : (s.notes.any fun _ => false) = false := by
      induction s.notes with
      | nil => rfl
      | cons _ _ ih => simp [ih]
    simp [h]
  | e :: t, s => by
    rw [List.foldl_cons]
    have hstep := dbExpStep e s
    dsimp only at hstep ⊢
    rw [hstep, dbExpFold t]
    dsimp only
    have hnotes :
        (s.notes.filter (fun n => !(n.experimentId == e.id))).filter
            (fun x => t.all (fun m => !(x.experimentId == m.id)))
          = s.notes.filter (fun x => (e :: t).all (fun m => !(x.experimentId == m.id))) := by
      rw [List.filter_filter]
      apply List.filter_congr
      intro x _
      simp [Bool.and_comm]
    have hatt :
        (s.attachments.filter (fun a =>
            !(s.notes.any (fun n => n.experimentId == e.id && a.noteId == n.id)))).filter
            (fun a => !((s.notes.filter (fun n => !(n.experimentId == e.id))).any
              (fun n => t.any (fun m => n.experimentId == m.id) && a.noteId == n.id)))
          = s.attachments.filter (fun a =>
              !(s.notes.any (fun n =>
                (e :: t).any (fun m => n.experimentId == m.id) && a.noteId == n.id))) := by
      rw [List.filter_filter]
      apply List.filter_congr
      intro a _
      rw [Bool.eq_iff_iff]
      simp only [Bool.and_eq_true, Bool.not_eq_true', List.any_eq_false, List.any_eq_true,
                 List.mem_filter, beq_iff_eq, beq_eq_false_iff_ne, List.any_cons, Bool.or_eq_true]
      constructor
      · rintro ⟨h1, h2⟩ n hmem hcond
        rcases hcond.1 with hc | hc
        · exact h2 n hmem ⟨hc, hcond.2⟩
        · rcases Classical.em (n.experimentId = e.id) with he | he
          · exact h2 n hmem ⟨he, hcond.2⟩
          · exact h1 n ⟨hmem, he⟩ ⟨hc, hcond.2⟩
      · intro h
        constructor
        · rintro n ⟨hmem, _⟩ hcond
          exact h n hmem ⟨Or.inr hcond.1, hcond.2⟩
        · rintro n hmem hcond
          exact h n hmem ⟨Or.inl hcond.1, hcond.2⟩
    rw [hnotes, hatt]

/-- Closed form of `DatabaseStorage.deleteProject` (no distinctness needed:
every delete statement works by predicate). -/
theorem dbDeleteProject_spec (i : Nat) (s : StoreState) :
    dbDeleteProject i s =
      (s.projects.any (fun p => p.id == i),
       { s with
          projects := s.projects.filter (fun p => p.id != i),
          experiments := s.experiments.filter (fun e => e.projectId != i),
          notes := s.notes.filter (fun x =>
            (s.experiments.filter (fun e => e.projectId == i)).all (fun e => !(x.experimentId == e.id))),
          attachments := s.attachments.filter (fun a =>
            !(s.notes.any (fun n =>
              (s.experiments.filter (fun e => e.projectId == i)).any (fun e => n.experimentId == e.id)
                && a.noteId == n.id))),
          projectCollaborators := s.projectCollaborators.filter (fun c => c.projectId != i) }) := by
  unfold dbDeleteProject
  dsimp only
  rw [dbExpFold]
  dsimp only
  rw [← any_eq_decide_countP]

/-- Closed form of `DatabaseStorage.deleteExperiment`. -/
theorem dbDeleteExperiment_spec (i : Nat) (s : StoreState) :
    dbDeleteExperiment i s =
      (s.experiments.any (fun e => e.id == i),
       { s with experiments := s.experiments.filter (fun e => e.id != i),
                notes := s.notes.filter (fun n => !(n.experimentId == i)),
                attachments := s.attachments.filter (fun a =>
                  !(s.notes.any (fun n => n.experimentId == i && a.noteId == n.id))) }) := by
  unfold dbDeleteExperiment
  dsimp only
  rw [dbAttFold, foldl_filter_ne Attachment.noteId Note.id]
  have hatt : s.attachments.filter (fun a =>
        (s.notes.filter (fun n => n.experimentId == i)).all (fun n => a.noteId != n.id))
      = s.attachments.filter (fun a =>
        !(s.notes.any (fun n => n.experimentId == i && a.noteId == n.id))) := by
    apply List.filter_congr
    intro a _
    rw [filter_all_eq_not_any]
    have harg : (fun n : Note => n.experimentId == i && !(a.noteId != n.id))
        = (fun n : Note => n.experimentId == i && a.noteId == n.id) := by
      funext n
      simp [bne, Bool.not_not]
    rw [harg]
  rw [hatt, ← any_eq_decide_countP]
  rfl

/-- Closed form of `DatabaseStorage.deleteNote`. -/
theorem dbDeleteNote_spec (i : Nat) (s : StoreState) :
    dbDeleteNote i s =
      (s.notes.any (fun n => n.id == i),
       { s with notes := s.notes.filter (fun n => n.id != i),
                attachments := s.attachments.filter (fun a => a.noteId != i) }) := by
  unfold dbDeleteNote
  dsimp only
  rw [← any_eq_decide_countP]

/-! ## `Map.set` and `find?` lemmas -/

/-- A value just set is in the map. -/
theorem mem_mapSet_self (getId : α → Nat) (l : List α) (v : α) :
    v ∈ mapSet getId l v := by
  unfold mapSet
  rcases h : l.any (fun x => getId x == getId v) with _ | _
  · simp
  · obtain ⟨x, hx, hxe⟩ := List.any_eq_true.mp h
    simp only [if_true]
    exact List.mem_map.mpr ⟨x, hx, by simp [hxe]⟩

/-- When no existing key collides, `Map.set` appends. -/
theorem mapSet_append_of_fresh (getId : α → Nat) (l : List α) (v : α)
    (h : ∀ x ∈ l, getId x ≠ getId v) : mapSet getId l v = l ++ [v] := by
  unfold mapSet
  have hany : l.any (fun x => getId x == getId v) = false :=
    List.any_eq_false.mpr (fun x hx => by simp [h x hx])
  simp [hany]

/-- Replacing the rows keyed `i` by `v` (with `v` keyed `i` as well) makes
`v` the first row found under key `i`, provided some row was found before. -/
theorem find?_replace (getId : α → Nat) (i : Nat) (v : α) (hv : getId v = i) :
    ∀ (l : List α) (ex : α), l.find? (fun x => getId x == i) = some ex →
      (l.map (fun x => if getId x == getId v then v else x)).find?
          (fun x => getId x == i) = some v
  | [], ex => by
    intro h
    simp at h
  | x :: l, ex => fun h => by
    rcases hx : (getId x == i) with _ | _
    · rw [List.find?_cons_of_neg _ (by simp [hx])] at h
      rw [List.map_cons]
      have hcond : (getId x == getId v) = false := by rw [hv]; exact hx
      simp only [hcond, if_false, Bool.false_eq_true, ite_false]
      rw [List.find?_cons_of_neg _ (by simp [hx])]
      exact find?_replace getId i v hv l ex h
    · rw [List.map_cons]
      have hxe : getId x = i := by simpa using hx
      have hcond : (getId x == getId v) = true := by
        rw [hv, hxe]
        simp
      simp only [hcond, if_true]
      exact List.find?_cons_of_pos _ (by simp [hv])

/-- `Map.set` of a value keyed `i` over a map that already holds key `i`
makes that value the one found under `i`. -/
theorem find?_mapSet (getId : α → Nat) (l : List α) (i : Nat) (ex v : α)
    (h : l.find? (fun x => getId x == i) = some ex) (hv : getId v = i) :
    (mapSet getId l v).find? (fun x => getId x == i) = some v := by
  unfold mapSet
  have hany : l.any (fun x => getId x == getId v) = true := by
    rw [hv]
    have hex := List.find?_some h
    exact List.any_eq_true.mpr ⟨ex, List.mem_of_find?_eq_some h, hex⟩
  simp only [hany, if_true]
  exact find?_replace getId i v hv l ex h

/-! ## Claim theorems -/

/-- C1 — Cascade completeness: on every well-formed store holding a project
with id `i`, `deleteProject i` (in either backend) reports success and
leaves no experiment of the project, no note of any of those experiments, no
attachment of any of those notes, and no collaborator row of the project;
`getProject i` afterwards reports absence. -/
theorem C1_cascade_completeness (s : StoreState) (i : Nat) (hwf : WF s)
    (hpresent : ∃ p ∈ s.projects, p.id = i) :
    ((memDeleteProject i s).1 = true ∧
     memGetProject i (memDeleteProject i s).2 = none ∧
     (∀ e ∈ (memDeleteProject i s).2.experiments, e.projectId ≠ i) ∧
     (∀ n ∈ (memDeleteProject i s).2.notes,
        ∀ e ∈ s.experiments, e.projectId = i → n.experimentId ≠ e.id) ∧
     (∀ a ∈ (memDeleteProject i s).2.attachments,
        ∀ n ∈ s.notes, (∃ e ∈ s.experiments, e.projectId = i ∧ n.experimentId = e.id) →
          a.noteId ≠ n.id) ∧
     (∀ c ∈ (memDeleteProject i s).2.projectCollaborators, c.projectId ≠ i)) ∧
    ((dbDeleteProject i s).1 = true ∧
     dbGetProject i (dbDeleteProject i s).2 = none ∧
     (∀ e ∈ (dbDeleteProject i s).2.experiments, e.projectId ≠ i) ∧
     (∀ n ∈ (dbDeleteProject i s).2.notes,
        ∀ e ∈ s.experiments, e.projectId = i → n.experimentId ≠ e.id) ∧
     (∀ a ∈ (dbDeleteProject i s).2.attachments,
        ∀ n ∈ s.notes, (∃ e ∈ s.experiments, e.projectId = i ∧ n.experimentId = e.id) →
          a.noteId ≠ n.id) ∧
     (∀ c ∈ (dbDeleteProject i s).2.projectCollaborators, c.projectId ≠ i)) := by
  obtain ⟨p0, hp0, hp0i⟩ := hpresent
  rw [memDeleteProject_spec i s hwf, dbDeleteProject_spec i s]
  dsimp only
  have hflag : s.projects.any (fun p => p.id == i) = true :=
    List.any_eq_true.mpr ⟨p0, hp0, by simp [hp0i]⟩
  have hget : (s.projects.filter (fun p => p.id != i)).find? (fun p => p.id == i) = none := by
    rw [List.find?_eq_none]
    intro x hx
    have := (List.mem_filter.mp hx).2
    simp only [bne_iff_ne, ne_eq] at this
    simp [this]
  have hnotes : ∀ n ∈ s.notes.filter (fun x =>
        (s.experiments.filter (fun e => e.projectId == i)).all (fun e => !(x.experimentId == e.id))),
      ∀ e ∈ s.experiments, e.projectId = i → n.experimentId ≠ e.id := by
    intro n hn e he hei
    obtain ⟨-, hall⟩ := List.mem_filter.mp hn
    have hcond := List.all_eq_true.mp hall e
      (List.mem_filter.mpr ⟨he, by simp [hei]⟩)
    simpa using hcond
  have hatt : ∀ a ∈ s.attachments.filter (fun a =>
        !(s.notes.any (fun n =>
          (s.experiments.filter (fun e => e.projectId == i)).any (fun e => n.experimentId == e.id)
            && a.noteId == n.id))),
      ∀ n ∈ s.notes, (∃ e ∈ s.experiments, e.projectId = i ∧ n.experimentId = e.id) →
        a.noteId ≠ n.id := by
    intro a ha n hn hex hani
    obtain ⟨e, he, hei, hne⟩ := hex
    obtain ⟨-, hnot⟩ := List.mem_filter.mp ha
    rw [Bool.not_eq_true', List.any_eq_false] at hnot
    apply hnot n hn
    have h1 : (s.experiments.filter (fun e => e.projectId == i)).any
        (fun e => n.experimentId == e.id) = true :=
      List.any_eq_true.mpr ⟨e, List.mem_filter.mpr ⟨he, by simp [hei]⟩, by simp [hne]⟩
    simp [h1, hani]
  have hcol : ∀ c ∈ s.projectCollaborators.filter (fun c => c.projectId != i),
      c.projectId ≠ i := by
    intro c hc
    have := (List.mem_filter.mp hc).2
    simpa using this
  refine ⟨⟨hflag, hget, ?_, hnotes, hatt, hcol⟩, ⟨hflag, ?_, ?_, hnotes, hatt, hcol⟩⟩
  · intro e he hei
    obtain ⟨hmem, hall⟩ := List.mem_filter.mp he
    have hcond := List.all_eq_true.mp hall e
      (List.mem_filter.mpr ⟨hmem, by simp [hei]⟩)
    simp at hcond
  · show ((s.projects.filter (fun p => p.id != i)).filter (fun p => p.id == i)).head? = none
    rw [List.filter_filter]
    have : s.projects.filter (fun p => (p.id == i) && (p.id != i)) = [] := by
      rw [List.filter_eq_nil_iff]
      intro p _
      rcases h : (p.id == i) with _ | _ <;> simp [h, bne]
    rw [this]
    rfl
  · intro e he
    have := (List.mem_filter.mp he).2
    simpa using this

/-- Witness for C1 at the spec's concrete scenario store. -/
theorem C1_cascade_completeness_witness :
    WF cascadeStore ∧ (∃ p ∈ cascadeStore.projects, p.id = 1) ∧
    memGetProject 1 (memDeleteProject 1 cascadeStore).2 = none :=
  ⟨by decide, by decide,
   ((C1_cascade_completeness cascadeStore 1 (by decide) (by decide)).1).2.1⟩

/-- Updating the rows keyed `i` in place with a key-preserving `f` makes the
image of the first row found under `i` the new first row found. -/
theorem find?_map_merge (getId : α → Nat) (i : Nat) (f : α → α)
    (hf : ∀ x, getId x = i → getId (f x) = i) :
    ∀ (l : List α) (ex : α), l.find? (fun x => getId x == i) = some ex →
      (l.map (fun x => if getId x == i then f x else x)).find?
          (fun x => getId x == i) = some (f ex)
  | [], ex => by
    intro h
    simp at h
  | x :: l, ex => fun h => by
    rcases hx : (getId x == i) with _ | _
    · rw [List.find?_cons_of_neg _ (by simp [hx])] at h
      rw [List.map_cons]
      simp only [hx, if_false, Bool.false_eq_true, ite_false]
      rw [List.find?_cons_of_neg _ (by simp [hx])]
      exact find?_map_merge getId i f hf l ex h
    · have hcases := List.find?_cons_eq_some.mp h
      rcases hcases with ⟨-, rfl⟩ | ⟨hneg, -⟩
      · rw [List.map_cons]
        simp only [hx, if_true]
        have hfi : getId (f x) = i := hf x (by simpa using hx)
        exact List.find?_cons_of_pos _ (by simp [hfi])
      · rw [hx] at hneg
        simp at hneg

/-- `Map.set` leaves rows with other keys in the map. -/
theorem mem_mapSet_other (getId : α → Nat) (l : List α) (v x : α)
    (hx : x ∈ l) (hne : getId x ≠ getId v) : x ∈ mapSet getId l v := by
  unfold mapSet
  rcases h : l.any (fun y => getId y == getId v) with _ | _
  · simp only [if_false, Bool.false_eq_true, ite_false]
    exact List.mem_append_left _ hx
  · simp only [if_true]
    exact List.mem_map.mpr ⟨x, hx, by simp [hne]⟩

/-- C5 — Partial-update merge law: for an existing project/experiment/note,
`update` (in either backend) changes exactly the fields present in the
partial shape plus `updatedAt`; omitted fields — `id` and `createdAt` in
particular — keep their pre-update values, in both the returned and the
stored record, and rows with other ids as well as the other collections are
untouched. -/
theorem C5_partial_update_merge (s : StoreState) (now i j k : Nat)
    (up : PartialProject) (ue : PartialExperiment) (un : PartialNote)
    (exP : Project) (exE : Experiment) (exN : Note)
    (hP : mapGet Project.id s.projects i = some exP)
    (hE : mapGet Experiment.id s.experiments j = some exE)
    (hN : mapGet Note.id s.notes k = some exN) :
    ((mergeProject exP up now).id = exP.id ∧
     (mergeProject exP up now).createdAt = exP.createdAt ∧
     (mergeProject exP up now).updatedAt = now ∧
     (up.name = none → (mergeProject exP up now).name = exP.name) ∧
     (∀ v, up.name = some v → (mergeProject exP up now).name = v) ∧
     (up.description = none → (mergeProject exP up now).description = exP.description) ∧
     (∀ v, up.description = some v → (mergeProject exP up now).description = v) ∧
     (up.ownerId = none → (mergeProject exP up now).ownerId = exP.ownerId) ∧
     (∀ v, up.ownerId = some v → (mergeProject exP up now).ownerId = v)) ∧
    ((mergeExperiment exE ue now).id = exE.id ∧
     (mergeExperiment exE ue now).createdAt = exE.createdAt ∧
     (mergeExperiment exE ue now).updatedAt = now ∧
     (ue.name = none → (mergeExperiment exE ue now).name = exE.name) ∧
     (∀ v, ue.name = some v → (mergeExperiment exE ue now).name = v) ∧
     (ue.description = none → (mergeExperiment exE ue now).description = exE.description) ∧
     (∀ v, ue.description = some v → (mergeExperiment exE ue now).description = v) ∧
     (ue.projectId = none → (mergeExperiment exE ue now).projectId = exE.projectId) ∧
     (∀ v, ue.projectId = some v → (mergeExperiment exE ue now).projectId = v)) ∧
    ((mergeNote exN un now).id = exN.id ∧
     (mergeNote exN un now).createdAt = exN.createdAt ∧
     (mergeNote exN un now).updatedAt = now ∧
     (un.title = none → (mergeNote exN un now).title = exN.title) ∧
     (∀ v, un.title = some v → (mergeNote exN un now).title = v) ∧
     (un.content = none → (mergeNote exN un now).content = exN.content) ∧
     (∀ v, un.content = some v → (mergeNote exN un now).content = v) ∧
     (un.experimentId = none → (mergeNote exN un now).experimentId = exN.experimentId) ∧
     (∀ v, un.experimentId = some v → (mergeNote exN un now).experimentId = v) ∧
     (un.authorId = none → (mergeNote exN un now).authorId = exN.authorId) ∧
     (∀ v, un.authorId = some v → (mergeNote exN un now).authorId = v)) ∧
    ((memUpdateProject now i up s).1 = some (mergeProject exP up now) ∧
     memGetProject i (memUpdateProject now i up s).2 = some (mergeProject exP up now) ∧
     (memUpdateExperiment now j ue s).1 = some (mergeExperiment exE ue now) ∧
     memGetExperiment j (memUpdateExperiment now j ue s).2 = some (mergeExperiment exE ue now) ∧
     (memUpdateNote now k un s).1 = some (mergeNote exN un now) ∧
     memGetNote k (memUpdateNote now k un s).2 = some (mergeNote exN un now)) ∧
    ((dbUpdateProject now i up s).1 = some (mergeProject exP up now) ∧
     dbGetProject i (dbUpdateProject now i up s).2 = some (mergeProject exP up now) ∧
     (dbUpdateExperiment now j ue s).1 = some (mergeExperiment exE ue now) ∧
     dbGetExperiment j (dbUpdateExperiment now j ue s).2 = some (mergeExperiment exE ue now) ∧
     (dbUpdateNote now k un s).1 = some (mergeNote exN un now) ∧
     dbGetNote k (dbUpdateNote now k un s).2 = some (mergeNote exN un now)) ∧
    ((∀ p ∈ s.projects, p.id ≠ i → p ∈ (memUpdateProject now i up s).2.projects) ∧
     (∀ p ∈ s.projects, p.id ≠ i → p ∈ (dbUpdateProject now i up s).2.projects) ∧
     (memUpdateProject now i up s).2.experiments = s.experiments ∧
     (memUpdateProject now i up s).2.notes = s.notes ∧
     (memUpdateProject now i up s).2.attachments = s.attachments ∧
     (memUpdateProject now i up s).2.projectCollaborators = s.projectCollaborators ∧
     (dbUpdateProject now i up s).2.experiments = s.experiments ∧
     (dbUpdateProject now i up s).2.notes = s.notes ∧
     (dbUpdateProject now i up s).2.attachments = s.attachments ∧
     (dbUpdateProject now i up s).2.projectCollaborators = s.projectCollaborators) := by
  have hPid : exP.id = i := by
    have := List.find?_some hP
    simpa using this
  have hEid : exE.id = j := by
    have := List.find?_some hE
    simpa using this
  have hNid : exN.id = k := by
    have := List.find?_some hN
    simpa using this
  refine ⟨?_, ?_, ?_, ?_, ?_, ?_⟩
  · exact ⟨rfl, rfl, rfl,
      fun h => by simp [mergeProject, h], fun v h => by simp [mergeProject, h],
      fun h => by simp [mergeProject, h], fun v h => by simp [mergeProject, h],
      fun h => by simp [mergeProject, h], fun v h => by simp [mergeProject, h]⟩
  · exact ⟨rfl, rfl, rfl,
      fun h => by simp [mergeExperiment, h], fun v h => by simp [mergeExperiment, h],
      fun h => by simp [mergeExperiment, h], fun v h => by simp [mergeExperiment, h],
      fun h => by simp [mergeExperiment, h], fun v h => by simp [mergeExperiment, h]⟩
  · exact ⟨rfl, rfl, rfl,
      fun h => by simp [mergeNote, h], fun v h => by simp [mergeNote, h],
      fun h => by simp [mergeNote, h], fun v h => by simp [mergeNote, h],
      fun h => by simp [mergeNote, h], fun v h => by simp [mergeNote, h],
      fun h => by simp [mergeNote, h], fun v h => by simp [mergeNote, h]⟩
  · unfold memUpdateProject memUpdateExperiment memUpdateNote
    rw [hP, hE, hN]
    dsimp only
    refine ⟨rfl, ?_, rfl, ?_, rfl, ?_⟩
    · exact find?_mapSet Project.id s.projects i exP _ hP (by simpa using hPid)
    · exact find?_mapSet Experiment.id s.experiments j exE _ hE (by simpa using hEid)
    · exact find?_mapSet Note.id s.notes k exN _ hN (by simpa using hNid)
  · unfold dbUpdateProject dbUpdateExperiment dbUpdateNote
    dsimp only
    have hfP : s.projects.find? (fun p => p.id == i) = some exP := hP
    have hfE : s.experiments.find? (fun e => e.id == j) = some exE := hE
    have hfN : s.notes.find? (fun n => n.id == k) = some exN := hN
    refine ⟨?_, ?_, ?_, ?_, ?_, ?_⟩
    · rw [List.head?_map, List.filter_head?, hfP]
      rfl
    · show ((s.projects.map fun p => if p.id == i then mergeProject p up now else p).filter
          (fun p => p.id == i)).head? = some (mergeProject exP up now)
      rw [List.filter_head?]
      exact find?_map_merge Project.id i (fun p => mergeProject p up now)
        (fun x hx => hx) s.projects exP hfP
    · rw [List.head?_map, List.filter_head?, hfE]
      rfl
    · show ((s.experiments.map fun e => if e.id == j then mergeExperiment e ue now else e).filter
          (fun e => e.id == j)).head? = some (mergeExperiment exE ue now)
      rw [List.filter_head?]
      exact find?_map_merge Experiment.id j (fun e => mergeExperiment e ue now)
        (fun x hx => hx) s.experiments exE hfE
    · rw [List.head?_map, List.filter_head?, hfN]
      rfl
    · show ((s.notes.map fun n => if n.id == k then mergeNote n un now else n).filter
          (fun n => n.id == k)).head? = some (mergeNote exN un now)
      rw [List.filter_head?]
      exact find?_map_merge Note.id k (fun n => mergeNote n un now)
        (fun x hx => hx) s.notes exN hfN
  · unfold memUpdateProject dbUpdateProject
    rw [hP]
    dsimp only
    refine ⟨?_, ?_, rfl, rfl, rfl, rfl, rfl, rfl, rfl, rfl⟩
    · intro p hp hne
      apply mem_mapSet_other Project.id s.projects _ p hp
      simpa [mergeProject, hPid] using hne
    · intro p hp hne
      refine List.mem_map.mpr ⟨p, hp, ?_⟩
      have : (p.id == i) = false := by simp [hne]
      simp [this]

/-- Witness for C5 at a concrete store, update shape and clock. -/
theorem C5_partial_update_merge_witness :
    mapGet Project.id cascadeStore.projects 1 = some ⟨1, "Lab A", none, 0, 0, 1⟩ ∧
    mapGet Experiment.id cascadeStore.experiments 1 = some ⟨1, "Trial 1", none, 1, 0, 0⟩ ∧
    mapGet Note.id cascadeStore.notes 1 = some ⟨1, "Obs 1", none, 1, 1, 0, 0⟩ ∧
    (memUpdateProject 5 1 { name := some "New" } cascadeStore).1
      = some (mergeProject ⟨1, "Lab A", none, 0, 0, 1⟩ { name := some "New" } 5) :=
  ⟨by decide, by decide, by decide,
   (C5_partial_update_merge cascadeStore 5 1 1 1 { name := some "New" } {} {}
      ⟨1, "Lab A", none, 0, 0, 1⟩ ⟨1, "Trial 1", none, 1, 0, 0⟩ ⟨1, "Obs 1", none, 1, 1, 0, 0⟩
      (by decide) (by decide) (by decide)).2.2.2.1.1⟩

/-- C9 — Create never fails for constraint reasons: neither backend checks
the declared parent id, so `createNote` with an experiment id that resolves
to no experiment (and `createExperiment` with a project id that resolves to
no project) still succeeds, returning a freshly keyed entity that is stored
with exactly the declared dangling parent reference. -/
theorem C9_create_without_parent (s : StoreState) (now : Nat)
    (insN : InsertNote) (insE : InsertExperiment)
    (_hnoExp : ∀ e ∈ s.experiments, e.id ≠ insN.experimentId)
    (_hnoProj : ∀ p ∈ s.projects, p.id ≠ insE.projectId) :
    ((memCreateNote now insN s).1.experimentId = insN.experimentId ∧
     (memCreateNote now insN s).1.title = insN.title ∧
     (memCreateNote now insN s).1.id = s.noteId ∧
     (memCreateNote now insN s).1 ∈ (memCreateNote now insN s).2.notes ∧
     (dbCreateNote now insN s).1.experimentId = insN.experimentId ∧
     (dbCreateNote now insN s).1.id = s.noteId ∧
     (dbCreateNote now insN s).2.notes = s.notes ++ [(dbCreateNote now insN s).1]) ∧
    ((memCreateExperiment now insE s).1.projectId = insE.projectId ∧
     (memCreateExperiment now insE s).1 ∈ (memCreateExperiment now insE s).2.experiments ∧
     (dbCreateExperiment now insE s).1.projectId = insE.projectId ∧
     (dbCreateExperiment now insE s).2.experiments
        = s.experiments ++ [(dbCreateExperiment now insE s).1]) := by
  refine ⟨⟨rfl, rfl, rfl, ?_, rfl, rfl, rfl⟩, ⟨rfl, ?_, rfl, rfl⟩⟩
  · exact mem_mapSet_self Note.id s.notes _
  · exact mem_mapSet_self Experiment.id s.experiments _

/-- Witness for C9: creating a note against experiment id 42 and an
experiment against project id 99 in the empty store. -/
theorem C9_create_without_parent_witness :
    (∀ e ∈ emptyStore.experiments, e.id ≠ 42) ∧
    (∀ p ∈ emptyStore.projects, p.id ≠ 99) ∧
    (memCreateNote 0 ⟨"Obs", none, 42, 1⟩ emptyStore).1.experimentId = 42 :=
  ⟨by decide, by decide,
   (C9_create_without_parent emptyStore 0 ⟨"Obs", none, 42, 1⟩ ⟨"Exp", none, 99⟩
      (by decide) (by decide)).1.1⟩

/-- C10 — Duplicate collaborator pairs are permitted: `addCollaborator`
checks no uniqueness on the project/user pair.  Adding the same pair twice
(in either backend) yields two distinct rows under distinct ids, both listed
for the project; in `MemStorage`, one subsequent `removeCollaborator` call
returns `true` and removes exactly the first of the two rows. -/
theorem C10_duplicate_collaborators (s : StoreState) (p u : Nat) (r1 r2 : String)
    (hfresh : ∀ x ∈ s.projectCollaborators, x.id < s.collaboratorId)
    (hnopair : ∀ x ∈ s.projectCollaborators, ¬(x.projectId = p ∧ x.userId = u)) :
    (let a1 := memAddCollaborator ⟨p, u, r1⟩ s
     let a2 := memAddCollaborator ⟨p, u, r2⟩ a1.2
     let rem := memRemoveCollaborator p u a2.2
     a1.1 ≠ a2.1 ∧ a1.1.id ≠ a2.1.id ∧
     a1.1 ∈ memListCollaboratorsByProject p a2.2 ∧
     a2.1 ∈ memListCollaboratorsByProject p a2.2 ∧
     rem.1 = true ∧
     rem.2.projectCollaborators = s.projectCollaborators ++ [a2.1]) ∧
    (let d1 := dbAddCollaborator ⟨p, u, r1⟩ s
     let d2 := dbAddCollaborator ⟨p, u, r2⟩ d1.2
     d1.1 ≠ d2.1 ∧ d1.1.id ≠ d2.1.id ∧
     d1.1 ∈ dbListCollaboratorsByProject p d2.2 ∧
     d2.1 ∈ dbListCollaboratorsByProject p d2.2) := by
  have hset1 : mapSet ProjectCollaborator.id s.projectCollaborators
      ⟨s.collaboratorId, p, u, r1⟩ = s.projectCollaborators ++ [⟨s.collaboratorId, p, u, r1⟩] :=
    mapSet_append_of_fresh _ _ _ (fun x hx => Nat.ne_of_lt (hfresh x hx))
  constructor
  · unfold memAddCollaborator memRemoveCollaborator memListCollaboratorsByProject
    dsimp only
    rw [hset1]
    have hset2 : mapSet ProjectCollaborator.id
        (s.projectCollaborators ++ [⟨s.collaboratorId, p, u, r1⟩])
        ⟨s.collaboratorId + 1, p, u, r2⟩
        = (s.projectCollaborators ++ [⟨s.collaboratorId, p, u, r1⟩])
            ++ [⟨s.collaboratorId + 1, p, u, r2⟩] := by
      apply mapSet_append_of_fresh
      intro x hx
      rcases List.mem_append.mp hx with hx1 | hx2
      · exact Nat.ne_of_lt (Nat.lt_trans (hfresh x hx1) (Nat.lt_succ_self _))
      · rw [List.mem_singleton.mp hx2]
        exact Nat.ne_of_lt (Nat.lt_succ_self _)
    rw [hset2]
    have hnone : List.find? (fun c => c.projectId == p && c.userId == u)
        s.projectCollaborators = none := by
      rw [List.find?_eq_none]
      intro x hx hcontra
      exact hnopair x hx ⟨by simpa using (Bool.and_eq_true_iff.mp hcontra).1,
                          by simpa using (Bool.and_eq_true_iff.mp hcontra).2⟩
    have hfind : List.find? (fun c => c.projectId == p && c.userId == u)
        ((s.projectCollaborators
            ++ [({ id := s.collaboratorId, projectId := p, userId := u, role := r1 } : ProjectCollaborator)])
          ++ [({ id := s.collaboratorId + 1, projectId := p, userId := u, role := r2 } : ProjectCollaborator)])
        = some { id := s.collaboratorId, projectId := p, userId := u, role := r1 } := by
      rw [List.append_assoc, List.find?_append, hnone]
      simp
    rw [hfind]
    dsimp only [mapDelete]
    refine ⟨?_, ?_, ?_, ?_, ?_, ?_⟩
    · intro h
      have : s.collaboratorId = s.collaboratorId + 1 := congrArg ProjectCollaborator.id h
      omega
    · dsimp only
      omega
    · rw [List.mem_filter]
      refine ⟨by simp, by simp⟩
    · rw [List.mem_filter]
      refine ⟨by simp, by simp⟩
    · rw [List.any_eq_true]
      exact ⟨⟨s.collaboratorId, p, u, r1⟩, by simp, by simp⟩
    · rw [List.append_assoc, List.filter_append]
      have h1 : s.projectCollaborators.filter (fun x => x.id != s.collaboratorId)
          = s.projectCollaborators := by
        rw [List.filter_eq_self]
        intro x hx
        simpa using Nat.ne_of_lt (hfresh x hx)
      have h2 : (([({ id := s.collaboratorId, projectId := p, userId := u, role := r1 } : ProjectCollaborator)])
            ++ [({ id := s.collaboratorId + 1, projectId := p, userId := u, role := r2 } : ProjectCollaborator)]).filter
          (fun x => x.id != s.collaboratorId)
          = [{ id := s.collaboratorId + 1, projectId := p, userId := u, role := r2 }] := by
        have hne : s.collaboratorId + 1 ≠ s.collaboratorId := by omega
        simp [List.filter_cons, hne]
      rw [h1, h2]
  · unfold dbAddCollaborator dbListCollaboratorsByProject
    dsimp only
    refine ⟨?_, ?_, ?_, ?_⟩
    · intro h
      have : s.collaboratorId = s.collaboratorId + 1 := congrArg ProjectCollaborator.id h
      omega
    · dsimp only
      omega
    · rw [List.mem_filter]
      refine ⟨by simp, by simp⟩
    · rw [List.mem_filter]
      refine ⟨by simp, by simp⟩

/-- Witness for C10: duplicate pair (3, 9) added twice to the scenario
store. -/
theorem C10_duplicate_collaborators_witness :
    (∀ x ∈ cascadeStore.projectCollaborators, x.id < cascadeStore.collaboratorId) ∧
    (∀ x ∈ cascadeStore.projectCollaborators, ¬(x.projectId = 3 ∧ x.userId = 9)) ∧
    (memRemoveCollaborator 3 9
      (memAddCollaborator ⟨3, 9, "Editor"⟩
        (memAddCollaborator ⟨3, 9, "Viewer"⟩ cascadeStore).2).2).1 = true := by
  refine ⟨by decide, by decide, ?_⟩
  have h := (C10_duplicate_collaborators cascadeStore 3 9 "Viewer" "Editor"
    (by decide) (by decide)).1
  exact h.2.2.2.2.1

/-- C2 — Search emptiness law, evaluated at the failing inputs: the
relational backend's `LIKE '%%'` matches every row on the empty query, and
the in-memory guard `if (!query)` lets a whitespace-only query through, so
it matches any record whose text contains the whitespace run.  (Only the
in-memory backend on the exactly-empty query returns the empty set.) -/
theorem C2_search_emptiness_violation :
    dbSearchNotes "" searchStore = [assayNote, spacedNote] ∧
    dbSearchProjects "" searchStore = searchStore.projects ∧
    dbSearchExperiments "" searchStore = searchStore.experiments ∧
    memSearchNotes "   " searchStore = [spacedNote] ∧
    memSearchProjects "   " searchStore = searchStore.projects ∧
    memSearchExperiments "   " searchStore = searchStore.experiments ∧
    memSearchNotes "" searchStore = [] ∧
    memSearchProjects "" searchStore = [] ∧
    memSearchExperiments "" searchStore = [] := by
  decide

/-- C3 — Owner/collaborator union deduplication, evaluated at the failing
input: user 1 owns project 1 and is listed as its collaborator;
`DatabaseStorage.listProjectsByUser` returns the project twice (it
concatenates the two query results without deduplicating), while
`MemStorage` deduplicates via its `Set`. -/
theorem C3_owner_collaborator_duplicate :
    dbListProjectsByUser 1 dupStore = [dupProject, dupProject] ∧
    memListProjectsByUser 1 dupStore = [dupProject] := by
  decide

/-- C4 — Search case-insensitivity, evaluated at the failing input: the
note "Protein Assay" is found by the in-memory backend under both "assay"
and "ASSAY", but the relational backend uses the case-sensitive `LIKE`, so
neither query matches there (only the exact-case "Assay" does). -/
theorem C4_search_case_violation :
    memSearchNotes "assay" searchStore = [assayNote] ∧
    memSearchNotes "ASSAY" searchStore = [assayNote] ∧
    dbSearchNotes "assay" searchStore = [] ∧
    dbSearchNotes "ASSAY" searchStore = [] ∧
    dbSearchNotes "Assay" searchStore = [assayNote] := by
  decide

/-- C8 — Backend equivalence of search, evaluated at the diverging inputs:
on identical data the two backends disagree both on a case-differing query
and on the empty query. -/
theorem C8_backend_search_divergence :
    dbSearchNotes "ASSAY" searchStore ≠ memSearchNotes "ASSAY" searchStore ∧
    dbSearchNotes "" searchStore ≠ memSearchNotes "" searchStore ∧
    dbSearchProjects "" searchStore ≠ memSearchProjects "" searchStore := by
  decide

/-- C7 — Cascade atomicity, evaluated at the failing input: interrupting
`DatabaseStorage.deleteProject` on the scenario store after its first delete
statement (the attachments of note 1) leaves the attachment gone while the
note, experiment, collaborator row and project row all survive — a partial
cascade, which a transaction would have rolled back.  With enough budget the
interrupted run agrees with the full cascade. -/
theorem C7_cascade_not_atomic :
    (dbDeleteProjectUpTo 1 1 cascadeStore).attachments = [] ∧
    (dbDeleteProjectUpTo 1 1 cascadeStore).notes = cascadeStore.notes ∧
    (dbDeleteProjectUpTo 1 1 cascadeStore).experiments = cascadeStore.experiments ∧
    (dbDeleteProjectUpTo 1 1 cascadeStore).projects = cascadeStore.projects ∧
    (dbDeleteProjectUpTo 1 1 cascadeStore).projectCollaborators
      = cascadeStore.projectCollaborators ∧
    dbDeleteProjectUpTo 6 1 cascadeStore = (dbDeleteProject 1 cascadeStore).2 := by
  decide

/-- C6 — counterexample: deleting project id 7, which does not exist, from a
store holding an orphaned experiment with `projectId = 7` returns `false`
but silently deletes the orphaned experiment — the store is mutated, so
"delete of an absent id leaves the entire store state unchanged" is false
as stated (in both backends). -/
theorem C6_idempotent_absence_counterexample :
    (memDeleteProject 7 orphanStore).1 = false ∧
    (memDeleteProject 7 orphanStore).2 ≠ orphanStore ∧
    (memDeleteProject 7 orphanStore).2.experiments = [] ∧
    (dbDeleteProject 7 orphanStore).1 = false ∧
    (dbDeleteProject 7 orphanStore).2 ≠ orphanStore := by
  decide

/-- C6 — amended idempotent absence: every delete returns `true` iff a row
with the target id existed (so an absent id yields `false`, never an
error); and when additionally no child or collaborator row references the
absent id, the whole store is left unchanged.  (The counterexample shows the
unchanged-state part fails without the no-referencing-children proviso:
orphaned children of the absent id are still cascaded away.) -/
theorem C6_idempotent_absence_amended (s : StoreState) (i : Nat) (hwf : WF s) :
    ((memDeleteProject i s).1 = s.projects.any (fun p => p.id == i) ∧
     (dbDeleteProject i s).1 = s.projects.any (fun p => p.id == i) ∧
     (memDeleteExperiment i s).1 = s.experiments.any (fun e => e.id == i) ∧
     (dbDeleteExperiment i s).1 = s.experiments.any (fun e => e.id == i) ∧
     (memDeleteNote i s).1 = s.notes.any (fun n => n.id == i) ∧
     (dbDeleteNote i s).1 = s.notes.any (fun n => n.id == i) ∧
     (memDeleteAttachment i s).1 = s.attachments.any (fun a => a.id == i) ∧
     (dbDeleteAttachment i s).1 = s.attachments.any (fun a => a.id == i)) ∧
    ((∀ p ∈ s.projects, p.id ≠ i) → (∀ e ∈ s.experiments, e.projectId ≠ i) →
       (∀ c ∈ s.projectCollaborators, c.projectId ≠ i) →
       memDeleteProject i s = (false, s) ∧ dbDeleteProject i s = (false, s)) ∧
    ((∀ e ∈ s.experiments, e.id ≠ i) → (∀ n ∈ s.notes, n.experimentId ≠ i) →
       memDeleteExperiment i s = (false, s) ∧ dbDeleteExperiment i s = (false, s)) ∧
    ((∀ n ∈ s.notes, n.id ≠ i) → (∀ a ∈ s.attachments, a.noteId ≠ i) →
       memDeleteNote i s = (false, s) ∧ dbDeleteNote i s = (false, s)) ∧
    ((∀ a ∈ s.attachments, a.id ≠ i) →
       memDeleteAttachment i s = (false, s) ∧ dbDeleteAttachment i s = (false, s)) := by
  obtain ⟨hwp, hwe, hwn, hwa, hwc⟩ := hwf
  refine ⟨?_, ?_, ?_, ?_, ?_⟩
  · refine ⟨?_, ?_, ?_, ?_, ?_, ?_, rfl, (any_eq_decide_countP _ _).symm⟩
    · exact congrArg Prod.fst (memDeleteProject_spec i s ⟨hwp, hwe, hwn, hwa, hwc⟩)
    · exact congrArg Prod.fst (dbDeleteProject_spec i s)
    · exact congrArg Prod.fst (memDeleteExperiment_spec i s hwn hwa)
    · exact congrArg Prod.fst (dbDeleteExperiment_spec i s)
    · exact congrArg Prod.fst (memDeleteNote_spec i s hwa)
    · exact congrArg Prod.fst (dbDeleteNote_spec i s)
  · intro h1 h2 h3
    have hflag : s.projects.any (fun p => p.id == i) = false :=
      List.any_eq_false.mpr (fun p hp => by simp [h1 p hp])
    have ht : s.experiments.filter (fun e => e.projectId == i) = [] :=
      List.filter_eq_nil_iff.mpr (fun e he => by simp [h2 e he])
    have e1 : s.projects.filter (fun p => p.id != i) = s.projects :=
      List.filter_eq_self.mpr (fun p hp => by simp [h1 p hp])
    have e4 : s.attachments.filter (fun a =>
        !(s.notes.any (fun n => ([] : List Experiment).any (fun e => n.experimentId == e.id)
            && a.noteId == n.id))) = s.attachments := by
      apply List.filter_eq_self.mpr
      intro a _
      have hz : (s.notes.any (fun n => ([] : List Experiment).any (fun e => n.experimentId == e.id)
          && a.noteId == n.id)) = false :=
        List.any_eq_false.mpr (fun n _ => by simp)
      rw [hz]
      rfl
    have e5 : s.projectCollaborators.filter (fun c => c.projectId != i)
        = s.projectCollaborators :=
      List.filter_eq_self.mpr (fun c hc => by simp [h3 c hc])
    have e2db : s.experiments.filter (fun e => e.projectId != i) = s.experiments :=
      List.filter_eq_self.mpr (fun e he => by simp [h2 e he])
    constructor
    · rw [memDeleteProject_spec i s ⟨hwp, hwe, hwn, hwa, hwc⟩, hflag, ht, e1, e4, e5]
      simp
    · rw [dbDeleteProject_spec i s, hflag, ht, e1, e4, e5, e2db]
      simp
  · intro h1 h2
    have hflag : s.experiments.any (fun e => e.id == i) = false :=
      List.any_eq_false.mpr (fun e he => by simp [h1 e he])
    have e1 : s.experiments.filter (fun e => e.id != i) = s.experiments :=
      List.filter_eq_self.mpr (fun e he => by simp [h1 e he])
    have e2 : s.notes.filter (fun n => !(n.experimentId == i)) = s.notes :=
      List.filter_eq_self.mpr (fun n hn => by simp [h2 n hn])
    have e3 : s.attachments.filter (fun a =>
        !(s.notes.any (fun n => n.experimentId == i && a.noteId == n.id))) = s.attachments := by
      apply List.filter_eq_self.mpr
      intro a _
      have hz : (s.notes.any (fun n => n.experimentId == i && a.noteId == n.id)) = false :=
        List.any_eq_false.mpr (fun n hn => by simp [h2 n hn])
      rw [hz]
      rfl
    constructor
    · rw [memDeleteExperiment_spec i s hwn hwa, hflag, e1, e2, e3]
    · rw [dbDeleteExperiment_spec i s, hflag, e1, e2, e3]
  · intro h1 h2
    have hflag : s.notes.any (fun n => n.id == i) = false :=
      List.any_eq_false.mpr (fun n hn => by simp [h1 n hn])
    have e1 : s.notes.filter (fun n => n.id != i) = s.notes :=
      List.filter_eq_self.mpr (fun n hn => by simp [h1 n hn])
    have e2 : s.attachments.filter (fun a => a.noteId != i) = s.attachments :=
      List.filter_eq_self.mpr (fun a ha => by simp [h2 a ha])
    constructor
    · rw [memDeleteNote_spec i s hwa, hflag, e1, e2]
    · rw [dbDeleteNote_spec i s, hflag, e1, e2]
  · intro h1
    have hflag : s.attachments.any (fun a => a.id == i) = false :=
      List.any_eq_false.mpr (fun a ha => by simp [h1 a ha])
    have e1 : s.attachments.filter (fun a => a.id != i) = s.attachments :=
      List.filter_eq_self.mpr (fun a ha => by simp [h1 a ha])
    constructor
    · unfold memDeleteAttachment mapDelete
      rw [hflag, e1]
    · unfold dbDeleteAttachment
      rw [← any_eq_decide_countP, hflag, e1]

/-- Witness for the amended C6: id 5 is absent from every collection of the
scenario store and nothing references it, so every delete is a no-op
returning `false`. -/
theorem C6_idempotent_absence_amended_witness :
    WF cascadeStore ∧
    memDeleteProject 5 cascadeStore = (false, cascadeStore) ∧
    dbDeleteNote 5 cascadeStore = (false, cascadeStore) :=
  ⟨by decide,
   ((C6_idempotent_absence_amended cascadeStore 5 (by decide)).2.1
      (by decide) (by decide) (by decide)).1,
   ((C6_idempotent_absence_amended cascadeStore 5 (by decide)).2.2.2.1
      (by decide) (by decide)).2⟩
